import Mathlib

/-!
Shallow embedding of the RenderFarm_Perf repository (src/rendparse).

Conventions of the embedding:
* Python `float` values are modelled as exact rationals `ℚ`; every numeric
  literal appearing in the claims (`2.5`, `80.0`, `5000`, …) is exactly
  representable, and the claims under study concern guards, counting and
  comparison logic rather than rounding.  The non-finite float literals
  ("inf", "nan") accepted by Python's `float()` are outside the model.
* `int(s)` / `float(s)` are modelled by `pyParseInt` / `pyParseFloat`
  returning `Option`; a raised `ValueError` is `none`.
* An uncaught Python exception aborting the run is modelled by `Except`:
  the streaming loop `runRows` short-circuits with a `RowError`, and an
  errored run carries no statistics.
* A CSV file is modelled as the list of its rows, each row the list of its
  comma-separated fields (a blank line is the empty list, as produced by
  Python's `csv.reader`).  A directory is a list of `(filename, rows)`
  pairs.
-/

namespace RendParse

/-- The whitespace characters removed by Python's `str.strip()`. -/
def isPySpace (c : Char) : Bool :=
  c = ' ' || c = '\t' || c = '\n' || c = '\r' || c = '\x0b' || c = '\x0c'

/-- Model of Python `str.strip()`: drop whitespace from both ends. -/
def stripChars (l : List Char) : List Char :=
  ((l.dropWhile isPySpace).reverse.dropWhile isPySpace).reverse

/-- Numeric value of a decimal digit character. -/
def digitVal (c : Char) : Nat := c.toNat - '0'.toNat

/-- Value of a list of decimal digit characters, most significant first. -/
def natOfDigits (l : List Char) : Nat :=
  l.foldl (fun a c => a * 10 + digitVal c) 0

/-- Parse a non-empty all-digit character list to a natural number. -/
def parseNatDigits (l : List Char) : Option Nat :=
  if l ≠ [] ∧ l.all Char.isDigit then some (natOfDigits l) else none

/-- Model of Python `int(s)` on strings: surrounding whitespace stripped,
optional sign, then a non-empty run of decimal digits; anything else raises
`ValueError`, modelled as `none`. -/
def pyParseInt (s : String) : Option Int :=
  match stripChars s.data with
  | '-' :: rest => (parseNatDigits rest).map (fun n => -(n : Int))
  | '+' :: rest => (parseNatDigits rest).map (fun n => (n : Int))
  | rest => (parseNatDigits rest).map (fun n => (n : Int))

/-- Split a character list at the first `'.'`, if any. -/
def splitDot : List Char → List Char × Option (List Char)
  | [] => ([], none)
  | '.' :: r => ([], some r)
  | c :: r => let (a, b) := splitDot r; (c :: a, b)

/-- Model of Python `float(s)` on finite decimal literals: surrounding
whitespace stripped, optional sign, digits with an optional fractional part,
at least one digit overall.  The result is the exact rational value. -/
def pyParseFloat (s : String) : Option ℚ :=
  let step (neg : Bool) (l : List Char) : Option ℚ :=
    let (ip, fpOpt) := splitDot l
    let fp := fpOpt.getD []
    if ip.all Char.isDigit ∧ fp.all Char.isDigit ∧ ip.length + fp.length ≠ 0 then
      let v : ℚ := (natOfDigits ip : ℚ) + (natOfDigits fp : ℚ) / ((10 : ℚ) ^ fp.length)
      some (if neg then -v else v)
    else none
  match stripChars s.data with
  | '-' :: rest => step true rest
  | '+' :: rest => step false rest
  | rest => step false rest

/-- One decoded CSV row (`RenderRow` in `parser.py`): required string fields,
a required integer frame count, a required success flag, and the three
optional numeric fields which are `none` when their source text failed to
parse (`try_except_typecast(..., None)` in `helpers.py`). -/
structure RenderRow where
  uid : String
  app : String
  renderer : String
  num_frames : Int
  success : Bool
  render_time : Option Int
  peak_ram : Option ℚ
  peak_cpu : Option ℚ
  deriving Repr, DecidableEq

/-- The two uncaught Python exceptions that `RenderRow(*row)` can raise:
`TypeError` when the row does not have exactly 8 fields, and `ValueError`
when `int(num_frames)` fails. -/
inductive RowError where
  | badArity
  | badFrameCount
  deriving Repr, DecidableEq

/-- Model of `RenderRow.__init__` applied to one CSV row, `RenderRow(*row)`:
a row of arity other than 8 raises `TypeError` before any field is parsed;
then `int(num_frames)` may raise `ValueError`; the success flag is
`success.strip() == 'true'`; the three optional fields fall back to `none`
on parse failure instead of raising. -/
def decodeRow (row : List String) : Except RowError RenderRow :=
  match row with
  | [uid, app, renderer, num_frames, success, render_time, peak_ram, peak_cpu] =>
    match pyParseInt num_frames with
    | none => .error .badFrameCount
    | some nf =>
      .ok { uid := uid
            app := app
            renderer := renderer
            num_frames := nf
            success := stripChars success.data = "true".data
            render_time := pyParseInt render_time
            peak_ram := pyParseFloat peak_ram
            peak_cpu := pyParseFloat peak_cpu }
  | _ => .error .badArity

/-- The filter criteria handed to `run_parser`: `app` and `renderer` are
`None` (not given on the command line) or a string; `failed` is the
`--failed` flag. -/
structure Filters where
  app : Option String
  renderer : Option String
  failed : Bool
  deriving Repr, DecidableEq

/-- Python truthiness of an optional string: `None` and `""` are falsy. -/
def strTruthy : Option String → Bool
  | none => false
  | some s => !s.isEmpty

/-- `filters[k] != field` as evaluated in `filter_rows` (only reached when
the filter value is truthy, hence a string). -/
def optNe (f : Option String) (field : String) : Bool :=
  match f with
  | some s => s != field
  | none => false

/-- The `skip_render` expression of `filter_rows`: `any` of the three
conditions built from Python `and`/`or` on truthy filter values. -/
def skipRender (fl : Filters) (r : RenderRow) : Bool :=
  (strTruthy fl.app && strTruthy fl.renderer &&
     (optNe fl.app r.app || optNe fl.renderer r.renderer)) ||
  (strTruthy fl.app && optNe fl.app r.app) ||
  (strTruthy fl.renderer && optNe fl.renderer r.renderer)

/-- Whether `filter_rows` yields a decoded row: not skipped by the
app/renderer conditions, and the render succeeded or `failed` is set. -/
def accept (fl : Filters) (r : RenderRow) : Bool :=
  !skipRender fl r && (r.success || fl.failed)

/-- The running statistics of `RenderStats.__init__`: a total count, and
per-metric `(count, value)` accumulators plus `(uid, value)` maxima. -/
structure RenderStats where
  count : Nat
  total_time_count : Nat
  total_time_value : Int
  total_cpu_count : Nat
  total_cpu_value : ℚ
  total_ram_count : Nat
  total_ram_value : ℚ
  max_cpu_uid : String
  max_cpu_value : ℚ
  max_ram_uid : String
  max_ram_value : ℚ
  deriving Repr, DecidableEq

/-- The freshly constructed `RenderStats()`: all numbers 0, both max uids
the empty string. -/
def RenderStats.init : RenderStats :=
  { count := 0
    total_time_count := 0
    total_time_value := 0
    total_cpu_count := 0
    total_cpu_value := 0
    total_ram_count := 0
    total_ram_value := 0
    max_cpu_uid := ""
    max_cpu_value := 0
    max_ram_uid := ""
    max_ram_value := 0 }

/-- The `if render.render_time:` block of `RenderStats.update`.  The guard
mirrors Python truthiness: it is false both for `None` and for the number
`0`, so a present-but-zero value takes the same path as an absent one. -/
def updTime (s : RenderStats) (r : RenderRow) : RenderStats :=
  match r.render_time with
  | some t =>
    if t = 0 then s
    else { s with total_time_count := s.total_time_count + 1
                  total_time_value := s.total_time_value + t }
  | none => s

/-- The `if render.peak_cpu:` block of `RenderStats.update`: truthiness
guard, then accumulate, then the strict `>` max comparison against the
current value (initially 0). -/
def updCpu (s : RenderStats) (r : RenderRow) : RenderStats :=
  match r.peak_cpu with
  | some c =>
    if c = 0 then s
    else
      let s' := { s with total_cpu_count := s.total_cpu_count + 1
                         total_cpu_value := s.total_cpu_value + c }
      if s'.max_cpu_value < c then
        { s' with max_cpu_uid := r.uid, max_cpu_value := c }
      else s'
  | none => s

/-- The `if render.peak_ram:` block of `RenderStats.update`. -/
def updRam (s : RenderStats) (r : RenderRow) : RenderStats :=
  match r.peak_ram with
  | some m =>
    if m = 0 then s
    else
      let s' := { s with total_ram_count := s.total_ram_count + 1
                         total_ram_value := s.total_ram_value + m }
      if s'.max_ram_value < m then
        { s' with max_ram_uid := r.uid, max_ram_value := m }
      else s'
  | none => s

/-- Model of `RenderStats.update`: increment the total count, then run the
three per-metric blocks in source order. -/
def RenderStats.update (s : RenderStats) (r : RenderRow) : RenderStats :=
  updRam (updCpu (updTime { s with count := s.count + 1 } r) r) r

/-- `RenderStats.avgtime`: `(value / 1000) / count if count else 0`, with
Python 3-style true division (the module imports `division` from
`__future__`). -/
def RenderStats.avgtime (s : RenderStats) : ℚ :=
  if s.total_time_count ≠ 0 then
    ((s.total_time_value : ℚ) / 1000) / (s.total_time_count : ℚ)
  else 0

/-- `RenderStats.avgcpu`: `value / count if count else 0`. -/
def RenderStats.avgcpu (s : RenderStats) : ℚ :=
  if s.total_cpu_count ≠ 0 then s.total_cpu_value / (s.total_cpu_count : ℚ)
  else 0

/-- `RenderStats.avgram`: `value / count if count else 0`. -/
def RenderStats.avgram (s : RenderStats) : ℚ :=
  if s.total_ram_count ≠ 0 then s.total_ram_value / (s.total_ram_count : ℚ)
  else 0

/-- `RenderStats.maxram`: the stored uid. -/
def RenderStats.maxram (s : RenderStats) : String := s.max_ram_uid

/-- `RenderStats.maxcpu`: the stored uid. -/
def RenderStats.maxcpu (s : RenderStats) : String := s.max_cpu_uid

/-! ### The filename pattern

`run_parser` keeps the directory entries `rf` with
`re.match(r'renders_\d{4}-\d{2}-\d{2}.csv', rf)`.  The regex is embedded
atom by atom as a chain of `Option`-returning eaters: `re.match` anchors at
the start only, so any trailing characters after the pattern are allowed,
and the unescaped `.` before `csv` matches any character except a
newline. -/

/-- Consume one literal character. -/
def eatLit (c : Char) : List Char → Option (List Char)
  | x :: xs => if x = c then some xs else none
  | [] => none

/-- Consume one `\d` (decimal digit). -/
def eatDigit : List Char → Option (List Char)
  | x :: xs => if x.isDigit then some xs else none
  | [] => none

/-- Consume one `.` of the regex: any character except `'\n'`. -/
def eatAnyChar : List Char → Option (List Char)
  | x :: xs => if x ≠ '\n' then some xs else none
  | [] => none

/-- Consume a literal character sequence. -/
def eatLits : List Char → List Char → Option (List Char)
  | [], l => some l
  | c :: cs, l => (eatLit c l).bind (eatLits cs)

/-- Consume `n` digits. -/
def eatDigits : Nat → List Char → Option (List Char)
  | 0, l => some l
  | n + 1, l => (eatDigit l).bind (eatDigits n)

/-- `re.match(r'renders_\d{4}-\d{2}-\d{2}.csv', name)` as a Boolean:
the pattern must match a prefix of `name`. -/
def fileMatch (name : String) : Bool :=
  (((((((eatLits "renders_".data name.data).bind
      (eatDigits 4)).bind (eatLit '-')).bind
      (eatDigits 2)).bind (eatLit '-')).bind
      (eatDigits 2)).bind eatAnyChar).bind (eatLits "csv".data) |>.isSome

/-- The filename selection of `run_parser`: keep the directory entries
whose name matches the pattern. -/
def selectFiles (names : List String) : List String :=
  names.filter fileMatch

/-! ### The streaming pipeline -/

/-- One file's row loop: each row is decoded (`RenderRow(*row)`, which may
raise), filtered, and folded into the statistics.  A raised exception
aborts with the error and no statistics. -/
def runRows (fl : Filters) (st : RenderStats) :
    List (List String) → Except RowError RenderStats
  | [] => .ok st
  | row :: rest =>
    match decodeRow row with
    | .error e => .error e
    | .ok r => runRows fl (if accept fl r then st.update r else st) rest

/-- The loop over selected files in `run_parser`: statistics thread through
file after file; an exception in one file aborts the whole run. -/
def runFiles (fl : Filters) (st : RenderStats) :
    List (List (List String)) → Except RowError RenderStats
  | [] => .ok st
  | f :: fs =>
    match runRows fl st f with
    | .error e => .error e
    | .ok st' => runFiles fl st' fs

/-- Model of `RenderFarmParser.run_parser`: select the files whose name
matches the pattern, then stream every selected file through the
decode/filter/update loop starting from fresh statistics. -/
def runParser (fl : Filters) (dir : List (String × List (List String))) :
    Except RowError RenderStats :=
  runFiles fl RenderStats.init ((dir.filter (fun e => fileMatch e.1)).map Prod.snd)

/-- The same fold at the level of already-decoded records: filter then
update.  `runRows` agrees with it whenever every row decodes (proved
below). -/
def processRecords (fl : Filters) (st : RenderStats) (recs : List RenderRow) :
    RenderStats :=
  recs.foldl (fun s r => if accept fl r then s.update r else s) st

/-- Decode a whole file, `none` if any row raises. -/
def decodeAll : List (List String) → Option (List RenderRow)
  | [] => some []
  | row :: rest =>
    match (decodeRow row).toOption with
    | none => none
    | some r => (decodeAll rest).map (r :: ·)

/-! ### Truthiness views used to state the aggregator's behaviour -/

/-- Python truthiness of an optional integer: `None` and `0` are falsy. -/
def truthyInt : Option Int → Bool
  | none => false
  | some t => decide (t ≠ 0)

/-- Python truthiness of an optional rational: `None` and `0` are falsy. -/
def truthyRat : Option ℚ → Bool
  | none => false
  | some q => decide (q ≠ 0)

/-- The peak-CPU value of a record as the aggregator sees it: `none` when
the field is absent or zero (falsy), otherwise the value. -/
def truthyCpu (r : RenderRow) : Option ℚ :=
  match r.peak_cpu with
  | none => none
  | some c => if c = 0 then none else some c

/-- The peak-RAM value of a record as the aggregator sees it. -/
def truthyRam (r : RenderRow) : Option ℚ :=
  match r.peak_ram with
  | none => none
  | some m => if m = 0 then none else some m

/-! ### The running-maximum selection, in isolation

`maxSel f` is the `(uid, value)` part of one per-metric block of
`RenderStats.update`; folding it over a record list is proved below to
coincide with the max fields of the statistics fold. -/

/-- One step of the running `(uid, value)` maximum, for the metric `f`. -/
def maxSel (f : RenderRow → Option ℚ) (p : String × ℚ) (r : RenderRow) :
    String × ℚ :=
  match f r with
  | none => p
  | some c => if p.2 < c then (r.uid, c) else p

/-- The running maximum value of the metric `f` over a record list,
starting from `m`. -/
def runMax (f : RenderRow → Option ℚ) (m : ℚ) : List RenderRow → ℚ
  | [] => m
  | r :: rs =>
    runMax f (match f r with | none => m | some c => max m c) rs

/-! ### Normal forms of the per-metric update blocks -/

theorem updTime_eq (s : RenderStats) (r : RenderRow) :
    updTime s r =
      if truthyInt r.render_time then
        { s with total_time_count := s.total_time_count + 1
                 total_time_value := s.total_time_value + r.render_time.getD 0 }
      else s := by
  rcases hr : r.render_time with _ | t
  · simp [updTime, truthyInt, hr]
  · by_cases ht : t = 0 <;> simp [updTime, truthyInt, hr, ht]

theorem updCpu_eq (s : RenderStats) (r : RenderRow) :
    updCpu s r =
      match truthyCpu r with
      | none => s
      | some c =>
        if s.max_cpu_value < c then
          { s with total_cpu_count := s.total_cpu_count + 1
                   total_cpu_value := s.total_cpu_value + c
                   max_cpu_uid := r.uid
                   max_cpu_value := c }
        else
          { s with total_cpu_count := s.total_cpu_count + 1
                   total_cpu_value := s.total_cpu_value + c } := by
  rcases hc : r.peak_cpu with _ | c
  · simp [updCpu, truthyCpu, hc]
  · by_cases h0 : c = 0
    · simp [updCpu, truthyCpu, hc, h0]
    · by_cases hlt : s.max_cpu_value < c <;> simp [updCpu, truthyCpu, hc, h0, hlt]

theorem updRam_eq (s : RenderStats) (r : RenderRow) :
    updRam s r =
      match truthyRam r with
      | none => s
      | some m =>
        if s.max_ram_value < m then
          { s with total_ram_count := s.total_ram_count + 1
                   total_ram_value := s.total_ram_value + m
                   max_ram_uid := r.uid
                   max_ram_value := m }
        else
          { s with total_ram_count := s.total_ram_count + 1
                   total_ram_value := s.total_ram_value + m } := by
  rcases hm : r.peak_ram with _ | m
  · simp [updRam, truthyRam, hm]
  · by_cases h0 : m = 0
    · simp [updRam, truthyRam, hm, h0]
    · by_cases hlt : s.max_ram_value < m <;> simp [updRam, truthyRam, hm, h0, hlt]

/-! Field projections of the blocks: each block touches only its own
metric's fields. -/

theorem updTime_count (s : RenderStats) (r : RenderRow) :
    (updTime s r).count = s.count := by
  rw [updTime_eq]; split <;> rfl

theorem updCpu_count (s : RenderStats) (r : RenderRow) :
    (updCpu s r).count = s.count := by
  rw [updCpu_eq]; rcases truthyCpu r with _ | c
  · rfl
  · simp only []; split <;> rfl

theorem updRam_count (s : RenderStats) (r : RenderRow) :
    (updRam s r).count = s.count := by
  rw [updRam_eq]; rcases truthyRam r with _ | m
  · rfl
  · simp only []; split <;> rfl

theorem update_count (s : RenderStats) (r : RenderRow) :
    (s.update r).count = s.count + 1 := by
  rw [RenderStats.update, updRam_count, updCpu_count, updTime_count]

theorem updCpu_time (s : RenderStats) (r : RenderRow) :
    (updCpu s r).total_time_count = s.total_time_count ∧
    (updCpu s r).total_time_value = s.total_time_value := by
  rw [updCpu_eq]; rcases truthyCpu r with _ | c
  · exact ⟨rfl, rfl⟩
  · simp only []; split <;> exact ⟨rfl, rfl⟩

theorem updRam_time (s : RenderStats) (r : RenderRow) :
    (updRam s r).total_time_count = s.total_time_count ∧
    (updRam s r).total_time_value = s.total_time_value := by
  rw [updRam_eq]; rcases truthyRam r with _ | m
  · exact ⟨rfl, rfl⟩
  · simp only []; split <;> exact ⟨rfl, rfl⟩

theorem updTime_cpu (s : RenderStats) (r : RenderRow) :
    (updTime s r).total_cpu_count = s.total_cpu_count ∧
    (updTime s r).total_cpu_value = s.total_cpu_value ∧
    (updTime s r).max_cpu_uid = s.max_cpu_uid ∧
    (updTime s r).max_cpu_value = s.max_cpu_value := by
  rw [updTime_eq]; split <;> exact ⟨rfl, rfl, rfl, rfl⟩

theorem updRam_cpu (s : RenderStats) (r : RenderRow) :
    (updRam s r).total_cpu_count = s.total_cpu_count ∧
    (updRam s r).total_cpu_value = s.total_cpu_value ∧
    (updRam s r).max_cpu_uid = s.max_cpu_uid ∧
    (updRam s r).max_cpu_value = s.max_cpu_value := by
  rw [updRam_eq]; rcases truthyRam r with _ | m
  · exact ⟨rfl, rfl, rfl, rfl⟩
  · simp only []; split <;> exact ⟨rfl, rfl, rfl, rfl⟩

theorem updTime_ram (s : RenderStats) (r : RenderRow) :
    (updTime s r).total_ram_count = s.total_ram_count ∧
    (updTime s r).total_ram_value = s.total_ram_value ∧
    (updTime s r).max_ram_uid = s.max_ram_uid ∧
    (updTime s r).max_ram_value = s.max_ram_value := by
  rw [updTime_eq]; split <;> exact ⟨rfl, rfl, rfl, rfl⟩

theorem updCpu_ram (s : RenderStats) (r : RenderRow) :
    (updCpu s r).total_ram_count = s.total_ram_count ∧
    (updCpu s r).total_ram_value = s.total_ram_value ∧
    (updCpu s r).max_ram_uid = s.max_ram_uid ∧
    (updCpu s r).max_ram_value = s.max_ram_value := by
  rw [updCpu_eq]; rcases truthyCpu r with _ | c
  · exact ⟨rfl, rfl, rfl, rfl⟩
  · simp only []; split <;> exact ⟨rfl, rfl, rfl, rfl⟩

/-! ### Per-record contribution equations for `update` -/

theorem update_time_fields (s : RenderStats) (r : RenderRow) :
    (s.update r).total_time_count
        = s.total_time_count + (if truthyInt r.render_time then 1 else 0) ∧
    (s.update r).total_time_value
        = s.total_time_value
            + (if truthyInt r.render_time then r.render_time.getD 0 else 0) := by
  rw [RenderStats.update]
  rw [(updRam_time _ _).1, (updCpu_time _ _).1]
  rw [(updRam_time _ _).2, (updCpu_time _ _).2]
  rw [updTime_eq]
  split <;> simp

theorem update_cpu_fields (s : RenderStats) (r : RenderRow) :
    (s.update r).total_cpu_count
        = s.total_cpu_count + (if truthyRat r.peak_cpu then 1 else 0) ∧
    (s.update r).total_cpu_value
        = s.total_cpu_value
            + (if truthyRat r.peak_cpu then r.peak_cpu.getD 0 else 0) := by
  rw [RenderStats.update]
  rw [(updRam_cpu _ _).1, (updRam_cpu _ _).2.1]
  rw [updCpu_eq]
  rcases hc : r.peak_cpu with _ | c
  · simp [truthyCpu, truthyRat, hc, (updTime_cpu _ _).1, (updTime_cpu _ _).2.1]
  · by_cases h0 : c = 0
    · simp [truthyCpu, truthyRat, hc, h0, (updTime_cpu _ _).1, (updTime_cpu _ _).2.1]
    · by_cases hlt : (updTime { s with count := s.count + 1 } r).max_cpu_value < c <;>
        simp [truthyCpu, truthyRat, hc, h0, hlt,
          (updTime_cpu _ _).1, (updTime_cpu _ _).2.1]

theorem update_ram_fields (s : RenderStats) (r : RenderRow) :
    (s.update r).total_ram_count
        = s.total_ram_count + (if truthyRat r.peak_ram then 1 else 0) ∧
    (s.update r).total_ram_value
        = s.total_ram_value
            + (if truthyRat r.peak_ram then r.peak_ram.getD 0 else 0) := by
  rw [RenderStats.update]
  rw [updRam_eq]
  rcases hm : r.peak_ram with _ | m
  · simp [truthyRam, truthyRat, hm, (updTime_ram _ _).1, (updTime_ram _ _).2.1,
      (updCpu_ram _ _).1, (updCpu_ram _ _).2.1]
  · by_cases h0 : m = 0
    · simp [truthyRam, truthyRat, hm, h0, (updTime_ram _ _).1, (updTime_ram _ _).2.1,
        (updCpu_ram _ _).1, (updCpu_ram _ _).2.1]
    · by_cases hlt :
        (updCpu (updTime { s with count := s.count + 1 } r) r).max_ram_value < m <;>
        simp [truthyRam, truthyRat, hm, h0, hlt,
          (updTime_ram _ _).1, (updTime_ram _ _).2.1,
          (updCpu_ram _ _).1, (updCpu_ram _ _).2.1]

/-! ### The max fields of `update` evolve exactly as `maxSel` -/

theorem update_max_cpu_pair (s : RenderStats) (r : RenderRow) :
    ((s.update r).max_cpu_uid, (s.update r).max_cpu_value)
      = maxSel truthyCpu (s.max_cpu_uid, s.max_cpu_value) r := by
  rw [RenderStats.update]
  rw [(updRam_cpu _ _).2.2.1, (updRam_cpu _ _).2.2.2]
  rw [updCpu_eq]
  rcases hc : truthyCpu r with _ | c
  · simp [maxSel, hc, (updTime_cpu _ _).2.2.1, (updTime_cpu _ _).2.2.2]
  · rw [(updTime_cpu _ _).2.2.2]
    by_cases hlt : s.max_cpu_value < c <;>
      simp [maxSel, hc, hlt, (updTime_cpu _ _).2.2.1, (updTime_cpu _ _).2.2.2]

theorem update_max_ram_pair (s : RenderStats) (r : RenderRow) :
    ((s.update r).max_ram_uid, (s.update r).max_ram_value)
      = maxSel truthyRam (s.max_ram_uid, s.max_ram_value) r := by
  rw [RenderStats.update]
  rw [updRam_eq]
  rcases hm : truthyRam r with _ | m
  · simp [maxSel, hm, (updTime_ram _ _).2.2.1, (updTime_ram _ _).2.2.2,
      (updCpu_ram _ _).2.2.1, (updCpu_ram _ _).2.2.2]
  · rw [(updCpu_ram _ _).2.2.2, (updTime_ram _ _).2.2.2]
    by_cases hlt : s.max_ram_value < m <;>
      simp [maxSel, hm, hlt, (updTime_ram _ _).2.2.1, (updTime_ram _ _).2.2.2,
        (updCpu_ram _ _).2.2.1, (updCpu_ram _ _).2.2.2]

theorem foldl_update_max_cpu (recs : List RenderRow) :
    ∀ s : RenderStats,
      (((recs.foldl RenderStats.update s).max_cpu_uid,
        (recs.foldl RenderStats.update s).max_cpu_value))
        = recs.foldl (maxSel truthyCpu) (s.max_cpu_uid, s.max_cpu_value) := by
  induction recs with
  | nil => intro s; rfl
  | cons r rs ih =>
    intro s
    rw [List.foldl_cons, List.foldl_cons, ih (s.update r), update_max_cpu_pair]

theorem foldl_update_max_ram (recs : List RenderRow) :
    ∀ s : RenderStats,
      (((recs.foldl RenderStats.update s).max_ram_uid,
        (recs.foldl RenderStats.update s).max_ram_value))
        = recs.foldl (maxSel truthyRam) (s.max_ram_uid, s.max_ram_value) := by
  induction recs with
  | nil => intro s; rfl
  | cons r rs ih =>
    intro s
    rw [List.foldl_cons, List.foldl_cons, ih (s.update r), update_max_ram_pair]

/-! ### Characterisation of the `maxSel` fold -/

theorem le_runMax (f : RenderRow → Option ℚ) (rs : List RenderRow) :
    ∀ m : ℚ, m ≤ runMax f m rs := by
  induction rs with
  | nil => intro m; exact le_refl m
  | cons r rs ih =>
    intro m
    rcases hf : f r with _ | c
    · simpa [runMax, hf] using ih m
    · simpa [runMax, hf] using le_trans (le_max_left m c) (ih (max m c))

theorem foldl_maxSel_snd (f : RenderRow → Option ℚ) (rs : List RenderRow) :
    ∀ (u : String) (m : ℚ), (rs.foldl (maxSel f) (u, m)).2 = runMax f m rs := by
  induction rs with
  | nil => intro u m; rfl
  | cons r rs ih =>
    intro u m
    rcases hf : f r with _ | c
    · simpa [runMax, hf, maxSel] using ih u m
    · by_cases hlt : m < c
      · have hmax : max m c = c := max_eq_right (le_of_lt hlt)
        simpa [runMax, hf, maxSel, hlt, hmax] using ih r.uid c
      · have hmax : max m c = m := max_eq_left (le_of_not_lt hlt)
        simpa [runMax, hf, maxSel, hlt, hmax] using ih u m

theorem foldl_maxSel_fst (f : RenderRow → Option ℚ) (rs : List RenderRow) :
    ∀ (u : String) (m : ℚ),
      (m < runMax f m rs →
        ∃ r, rs.find? (fun x => decide (f x = some (runMax f m rs))) = some r ∧
          (rs.foldl (maxSel f) (u, m)).1 = r.uid)
      ∧ (runMax f m rs ≤ m → (rs.foldl (maxSel f) (u, m)).1 = u) := by
  induction rs with
  | nil =>
    intro u m
    exact ⟨fun h => absurd h (lt_irrefl m), fun _ => rfl⟩
  | cons r rs ih =>
    intro u m
    rcases hf : f r with _ | c
    · have hrm : runMax f m (r :: rs) = runMax f m rs := by simp [runMax, hf]
      have hstep : maxSel f (u, m) r = (u, m) := by simp [maxSel, hf]
      constructor
      · intro hlt
        rw [hrm] at hlt
        obtain ⟨r', hfind, hfst⟩ := (ih u m).1 hlt
        refine ⟨r', ?_, ?_⟩
        · rw [hrm, List.find?_cons_of_neg _ (by simp [hf]), hfind]
        · rw [List.foldl_cons, hstep]; exact hfst
      · intro hle
        rw [hrm] at hle
        rw [List.foldl_cons, hstep]
        exact (ih u m).2 hle
    · by_cases hmc : m < c
      · have hmax : max m c = c := max_eq_right (le_of_lt hmc)
        have hrm : runMax f m (r :: rs) = runMax f c rs := by
          simp [runMax, hf, hmax]
        have hstep : maxSel f (u, m) r = (r.uid, c) := by simp [maxSel, hf, hmc]
        have hcM : c ≤ runMax f c rs := le_runMax f rs c
        constructor
        · intro _
          by_cases hlt2 : c < runMax f c rs
          · obtain ⟨r', hfind, hfst⟩ := (ih r.uid c).1 hlt2
            refine ⟨r', ?_, ?_⟩
            · rw [hrm, List.find?_cons_of_neg, hfind]
              simp only [hf, decide_eq_true_eq]
              intro hcon
              exact absurd (Option.some.inj hcon) (ne_of_lt hlt2)
            · rw [List.foldl_cons, hstep]; exact hfst
          · have hMc : runMax f c rs = c := le_antisymm (le_of_not_lt hlt2) hcM
            refine ⟨r, ?_, ?_⟩
            · rw [hrm, List.find?_cons_of_pos]
              simp [hf, hMc]
            · rw [List.foldl_cons, hstep]
              exact (ih r.uid c).2 (le_of_eq hMc)
        · intro hle
          rw [hrm] at hle
          exact absurd (lt_of_lt_of_le hmc hcM) (not_lt_of_le hle)
      · have hmax : max m c = m := max_eq_left (le_of_not_lt hmc)
        have hrm : runMax f m (r :: rs) = runMax f m rs := by
          simp [runMax, hf, hmax]
        have hstep : maxSel f (u, m) r = (u, m) := by simp [maxSel, hf, hmc]
        constructor
        · intro hlt
          rw [hrm] at hlt
          obtain ⟨r', hfind, hfst⟩ := (ih u m).1 hlt
          refine ⟨r', ?_, ?_⟩
          · rw [hrm, List.find?_cons_of_neg, hfind]
            simp only [hf, decide_eq_true_eq]
            intro hcon
            have : c = runMax f m rs := Option.some.inj hcon
            exact absurd (this ▸ hlt) (not_lt_of_le (le_of_not_lt hmc))
          · rw [List.foldl_cons, hstep]; exact hfst
        · intro hle
          rw [hrm] at hle
          rw [List.foldl_cons, hstep]
          exact (ih u m).2 hle

/-! ### Pipeline bridging lemmas -/

theorem processRecords_count (fl : Filters) (recs : List RenderRow) :
    ∀ st : RenderStats,
      (processRecords fl st recs).count
        = st.count + (recs.filter (accept fl)).length := by
  induction recs with
  | nil => intro st; simp [processRecords]
  | cons r rs ih =>
    intro st
    rw [processRecords, List.foldl_cons, ← processRecords]
    by_cases ha : accept fl r = true
    · rw [if_pos ha, List.filter_cons_of_pos ha, ih (st.update r), update_count,
        List.length_cons]
      omega
    · rw [if_neg ha, List.filter_cons_of_neg ha]
      exact ih st

theorem runRows_processRecords (fl : Filters) (rows : List (List String)) :
    ∀ (recs : List RenderRow) (st : RenderStats),
      decodeAll rows = some recs →
      runRows fl st rows = .ok (processRecords fl st recs) := by
  induction rows with
  | nil =>
    intro recs st h
    simp only [decodeAll, Option.some.injEq] at h
    subst h
    rfl
  | cons row rest ih =>
    intro recs st h
    rw [decodeAll] at h
    rcases hd : (decodeRow row).toOption with _ | r
    · rw [hd] at h; simp at h
    · rw [hd] at h
      rcases hrest : decodeAll rest with _ | recs'
      · rw [hrest] at h; simp at h
      · rw [hrest] at h
        simp only [Option.map_some', Option.some.injEq] at h
        subst h
        have hdec : decodeRow row = .ok r := by
          rcases hdr : decodeRow row with e | r'
          · rw [hdr] at hd; simp [Except.toOption] at hd
          · rw [hdr] at hd
            simp only [Except.toOption, Option.some.injEq] at hd
            rw [hd]
        rw [runRows, hdec]
        simp only []
        rw [ih recs' _ hrest]
        rfl

theorem runRows_ok_prefix (fl : Filters) (pre : List (List String)) :
    ∀ (st : RenderStats) (rest : List (List String)),
      (∀ x ∈ pre, ∃ r, decodeRow x = .ok r) →
      ∃ st', runRows fl st (pre ++ rest) = runRows fl st' rest := by
  induction pre with
  | nil => intro st rest _; exact ⟨st, rfl⟩
  | cons row pre ih =>
    intro st rest h
    obtain ⟨r, hr⟩ := h row (List.mem_cons_self row pre)
    have hrest : ∀ x ∈ pre, ∃ r, decodeRow x = .ok r :=
      fun x hx => h x (List.mem_cons_of_mem row hx)
    obtain ⟨st', hst'⟩ :=
      ih (if accept fl r then st.update r else st) rest hrest
    refine ⟨st', ?_⟩
    rw [List.cons_append, runRows, hr]
    exact hst'

theorem decodeRow_badFrame (uid app renderer nf succ rt pram pcpu : String)
    (h : pyParseInt nf = none) :
    decodeRow [uid, app, renderer, nf, succ, rt, pram, pcpu]
      = .error .badFrameCount := by
  simp [decodeRow, h]

theorem decodeRow_arity (row : List String) (h : row.length ≠ 8) :
    decodeRow row = .error .badArity := by
  rcases row with _ | ⟨f1, _ | ⟨f2, _ | ⟨f3, _ | ⟨f4, _ | ⟨f5, _ | ⟨f6, _ |
    ⟨f7, _ | ⟨f8, _ | ⟨f9, t⟩⟩⟩⟩⟩⟩⟩⟩⟩ <;>
    first
      | rfl
      | exact absurd rfl h

/-! ## Claim theorems -/

/-- C7: each derived average divides only by its own valid-sample count and
the division is guarded: `avgtime` is `(timeSum / 1000) / timeCount` when
`timeCount ≠ 0` and exactly `0` when it is `0`, likewise `avgcpu` and
`avgram`; the queries are total functions (no division error can be
raised), and `count` (the total record count) never feeds any divisor: the
averages are invariant under changing `count`. -/
theorem avg_queries_guarded (s : RenderStats) :
    (s.total_time_count = 0 → s.avgtime = 0) ∧
    (s.total_time_count ≠ 0 →
      s.avgtime = ((s.total_time_value : ℚ) / 1000) / (s.total_time_count : ℚ)) ∧
    (s.total_cpu_count = 0 → s.avgcpu = 0) ∧
    (s.total_cpu_count ≠ 0 →
      s.avgcpu = s.total_cpu_value / (s.total_cpu_count : ℚ)) ∧
    (s.total_ram_count = 0 → s.avgram = 0) ∧
    (s.total_ram_count ≠ 0 →
      s.avgram = s.total_ram_value / (s.total_ram_count : ℚ)) ∧
    (∀ n : Nat,
      ({ s with count := n } : RenderStats).avgtime = s.avgtime ∧
      ({ s with count := n } : RenderStats).avgcpu = s.avgcpu ∧
      ({ s with count := n } : RenderStats).avgram = s.avgram) :=
  ⟨fun h => by simp [RenderStats.avgtime, h],
   fun h => by simp [RenderStats.avgtime, h],
   fun h => by simp [RenderStats.avgcpu, h],
   fun h => by simp [RenderStats.avgcpu, h],
   fun h => by simp [RenderStats.avgram, h],
   fun h => by simp [RenderStats.avgram, h],
   fun _ => ⟨rfl, rfl, rfl⟩⟩

/-- A populated state used to exercise the nonzero-count branches of the
average queries. -/
def statsWithSamples : RenderStats :=
  { count := 7
    total_time_count := 1
    total_time_value := 5000
    total_cpu_count := 2
    total_cpu_value := 160
    total_ram_count := 1
    total_ram_value := 5/2
    max_cpu_uid := "w"
    max_cpu_value := 80
    max_ram_uid := "w"
    max_ram_value := 5/2 }

theorem avg_queries_guarded_witness :
    RenderStats.init.avgtime = 0 ∧
    RenderStats.init.avgcpu = 0 ∧
    RenderStats.init.avgram = 0 ∧
    statsWithSamples.avgtime = 5 ∧
    statsWithSamples.avgcpu = 80 ∧
    statsWithSamples.avgram = 5/2 := by
  refine ⟨(avg_queries_guarded RenderStats.init).1 rfl,
    (avg_queries_guarded RenderStats.init).2.2.1 rfl,
    (avg_queries_guarded RenderStats.init).2.2.2.2.1 rfl, ?_, ?_, ?_⟩
  · rw [(avg_queries_guarded statsWithSamples).2.1 (by simp [statsWithSamples])]
    norm_num [statsWithSamples]
  · rw [(avg_queries_guarded statsWithSamples).2.2.2.1 (by simp [statsWithSamples])]
    norm_num [statsWithSamples]
  · rw [(avg_queries_guarded statsWithSamples).2.2.2.2.2.1 (by simp [statsWithSamples])]
    norm_num [statsWithSamples]

/-- C9: an empty-string `app` (or `renderer`) filter is falsy in the
`skip_render` conditions, so it behaves exactly like an unset (`None`)
filter: every record passes that check. -/
theorem empty_string_filter_skipped (rd : Option String) (ap : Option String)
    (failed : Bool) (r : RenderRow) :
    accept ⟨some "", rd, failed⟩ r = accept ⟨none, rd, failed⟩ r ∧
    accept ⟨ap, some "", failed⟩ r = accept ⟨ap, none, failed⟩ r := by
  have he : "".isEmpty = true := rfl
  constructor
  · simp [accept, skipRender, strTruthy, he]
  · simp [accept, skipRender, strTruthy, he]

/-- The first `skip_render` condition (`app` and `renderer` both truthy and
one mismatching) is subsumed by the other two: skipping reduces to "some
truthy filter mismatches". -/
theorem skipRender_eq (fl : Filters) (r : RenderRow) :
    skipRender fl r
      = ((strTruthy fl.app && optNe fl.app r.app) ||
         (strTruthy fl.renderer && optNe fl.renderer r.renderer)) := by
  unfold skipRender
  cases hta : strTruthy fl.app <;> cases htb : strTruthy fl.renderer <;>
    cases hna : optNe fl.app r.app <;> cases hnb : optNe fl.renderer r.renderer <;>
      rfl

/-- A truthy filter value passes the mismatch test iff it equals the field:
the form used to characterise acceptance. -/
theorem truthy_match (f : Option String) (x : String) :
    (strTruthy f = false ∨ optNe f x = false) ↔
      (strTruthy f = true → f = some x) := by
  cases f with
  | none => simp [strTruthy, optNe]
  | some s =>
    constructor
    · rintro (h | h)
      · intro ht
        rw [ht] at h
        exact absurd h (by simp)
      · intro _
        have hs : s = x := by simpa [optNe] using h
        rw [hs]
    · intro h
      by_cases ht : strTruthy (some s) = true
      · have hs : s = x := Option.some.inj (h ht)
        exact Or.inr (by simp [optNe, hs])
      · exact Or.inl (Bool.eq_false_iff.mpr ht)

/-- C4: the row filter accepts a record iff every truthy (set and
non-empty) filter matches the record by exact string equality and the
record succeeded or `failed` is set.  In particular, with both filters set,
a record matching only one of them is rejected, and the comparison applies
no normalisation. -/
theorem filter_accept_iff (fl : Filters) (r : RenderRow) :
    accept fl r = true ↔
      ((strTruthy fl.app = true → fl.app = some r.app) ∧
       (strTruthy fl.renderer = true → fl.renderer = some r.renderer) ∧
       (r.success = true ∨ fl.failed = true)) := by
  rw [accept, skipRender_eq]
  simp only [Bool.and_eq_true, Bool.not_eq_true', Bool.or_eq_false_iff,
    Bool.and_eq_false_iff, Bool.or_eq_true]
  rw [truthy_match fl.app r.app, truthy_match fl.renderer r.renderer]
  tauto

/-- C2 (amended): a record contributes to a metric's sum and valid-sample
count exactly when the optional field is truthy, i.e. present AND non-zero;
a present value of `0` is conflated with absence by the Python truthiness
guard.  Absent (`none`) values participate in no sum, count or max
comparison of their metric. -/
theorem metric_contribution_iff_truthy (s : RenderStats) (r : RenderRow) :
    ((s.update r).total_time_count
        = s.total_time_count + (if truthyInt r.render_time then 1 else 0)) ∧
    ((s.update r).total_time_value
        = s.total_time_value
            + (if truthyInt r.render_time then r.render_time.getD 0 else 0)) ∧
    ((s.update r).total_cpu_count
        = s.total_cpu_count + (if truthyRat r.peak_cpu then 1 else 0)) ∧
    ((s.update r).total_cpu_value
        = s.total_cpu_value
            + (if truthyRat r.peak_cpu then r.peak_cpu.getD 0 else 0)) ∧
    ((s.update r).total_ram_count
        = s.total_ram_count + (if truthyRat r.peak_ram then 1 else 0)) ∧
    ((s.update r).total_ram_value
        = s.total_ram_value
            + (if truthyRat r.peak_ram then r.peak_ram.getD 0 else 0)) ∧
    (r.peak_cpu = none →
      (s.update r).max_cpu_uid = s.max_cpu_uid ∧
      (s.update r).max_cpu_value = s.max_cpu_value) ∧
    (r.peak_ram = none →
      (s.update r).max_ram_uid = s.max_ram_uid ∧
      (s.update r).max_ram_value = s.max_ram_value) := by
  refine ⟨(update_time_fields s r).1, (update_time_fields s r).2,
    (update_cpu_fields s r).1, (update_cpu_fields s r).2,
    (update_ram_fields s r).1, (update_ram_fields s r).2, ?_, ?_⟩
  · intro hn
    have h := update_max_cpu_pair s r
    have ht : truthyCpu r = none := by simp [truthyCpu, hn]
    rw [maxSel, ht] at h
    exact ⟨congrArg Prod.fst h, congrArg Prod.snd h⟩
  · intro hn
    have h := update_max_ram_pair s r
    have ht : truthyRam r = none := by simp [truthyRam, hn]
    rw [maxSel, ht] at h
    exact ⟨congrArg Prod.fst h, congrArg Prod.snd h⟩

/-- A record whose `renderTimeMillis` is present and equal to `0`: the
claimed behaviour would count it in `timeCount`, the code does not. -/
def zeroTimeRow : RenderRow :=
  { uid := "z", app := "Maya", renderer := "Arnold", num_frames := 1
    success := true, render_time := some 0, peak_ram := none, peak_cpu := none }

/-- C2 counterexample: `render_time = some 0` is non-null, yet updating
fresh statistics with this record leaves `timeCount` (and `timeSum`) at 0,
where the claim requires `timeCount = 1`. -/
theorem metric_zero_value_not_counted :
    zeroTimeRow.render_time = some 0 ∧
    (RenderStats.init.update zeroTimeRow).total_time_count = 0 ∧
    (RenderStats.init.update zeroTimeRow).total_time_value = 0 :=
  ⟨rfl, rfl, rfl⟩

theorem metric_contribution_iff_truthy_witness :
    (RenderStats.init.update zeroTimeRow).total_time_count
        = RenderStats.init.total_time_count
            + (if truthyInt zeroTimeRow.render_time then 1 else 0) ∧
    (RenderStats.init.update zeroTimeRow).max_cpu_uid = "" ∧
    (RenderStats.init.update zeroTimeRow).max_ram_uid = "" :=
  ⟨(metric_contribution_iff_truthy RenderStats.init zeroTimeRow).1,
   ((metric_contribution_iff_truthy RenderStats.init zeroTimeRow).2.2.2.2.2.2.1
      rfl).1.trans rfl,
   ((metric_contribution_iff_truthy RenderStats.init zeroTimeRow).2.2.2.2.2.2.2
      rfl).1.trans rfl⟩

/-- C5 (amended): after a run over rows that all decode, the streamed
statistics are the fold over decoded records; `count` equals the number of
records the filter accepted, whatever optional fields they carry; with
`failed` unset only succeeded records are accepted; an accepted record
contributes to a metric's valid-sample count exactly when that field is
truthy (present and non-zero — presence alone is not enough). -/
theorem total_count_eq_accepted_length (fl : Filters) (rows : List (List String))
    (recs : List RenderRow) (h : decodeAll rows = some recs) :
    runRows fl RenderStats.init rows
        = .ok (processRecords fl RenderStats.init recs) ∧
    (processRecords fl RenderStats.init recs).count
        = (recs.filter (accept fl)).length ∧
    (fl.failed = false → ∀ r ∈ recs, accept fl r = true → r.success = true) ∧
    (∀ (s : RenderStats) (r : RenderRow),
      (s.update r).total_time_count
          = s.total_time_count + (if truthyInt r.render_time then 1 else 0) ∧
      (s.update r).total_cpu_count
          = s.total_cpu_count + (if truthyRat r.peak_cpu then 1 else 0) ∧
      (s.update r).total_ram_count
          = s.total_ram_count + (if truthyRat r.peak_ram then 1 else 0)) := by
  refine ⟨runRows_processRecords fl rows recs RenderStats.init h, ?_, ?_, ?_⟩
  · rw [processRecords_count]
    simp [RenderStats.init]
  · intro hf r _ ha
    have hsucc := (Bool.and_eq_true _ _ |>.mp ha).2
    rw [hf] at hsucc
    simpa using hsucc
  · intro s r
    exact ⟨(update_time_fields s r).1, (update_cpu_fields s r).1,
      (update_ram_fields s r).1⟩

/-- The decoded form of the row used in the C5 witness. -/
def plainRow : RenderRow :=
  { uid := "a", app := "Maya", renderer := "Arnold", num_frames := 1
    success := true, render_time := none, peak_ram := none, peak_cpu := none }

theorem total_count_eq_accepted_length_witness :
    runRows ⟨none, none, false⟩ RenderStats.init
        [["a", "Maya", "Arnold", "1", "true", "", "", ""]]
      = .ok (processRecords ⟨none, none, false⟩ RenderStats.init [plainRow]) ∧
    (processRecords ⟨none, none, false⟩ RenderStats.init [plainRow]).count = 1 := by
  have h := total_count_eq_accepted_length ⟨none, none, false⟩
    [["a", "Maya", "Arnold", "1", "true", "", "", ""]] [plainRow] rfl
  exact ⟨h.1, h.2.1.trans rfl⟩

/-- A failed record (counted because `failed` is set) whose `peakRamMB` is
present and equal to `0`. -/
def failedZeroRamRow : RenderRow :=
  { uid := "f", app := "Maya", renderer := "Arnold", num_frames := 1
    success := false, render_time := none, peak_ram := some 0, peak_cpu := none }

/-- C5 counterexample: with `failed` set, this record is counted in
`totalCount`, its `peakRamMB` is present (`some 0`), yet it does not
contribute to the RAM metric — the claim says a counted record contributes
to a metric exactly when the source field is present. -/
theorem failed_zero_field_not_in_metric :
    (processRecords ⟨none, none, true⟩ RenderStats.init [failedZeroRamRow]).count
        = 1 ∧
    failedZeroRamRow.peak_ram = some 0 ∧
    (processRecords ⟨none, none, true⟩
        RenderStats.init [failedZeroRamRow]).total_ram_count = 0 :=
  ⟨rfl, rfl, rfl⟩

/-- C3 (amended): folding accepted records into fresh statistics, the
recorded max-CPU id is the id of the FIRST record whose truthy (present and
non-zero) `peakCpuPercent` attains the running maximum, provided that
maximum is positive; if no record has a truthy positive value the id stays
the empty string (so records whose only values are zero or negative never
set it).  Ties keep the first record (strict `>` comparison).  The same
holds for the max-RAM id over `peakRamMB`. -/
theorem max_uid_first_argmax (recs : List RenderRow) :
    (0 < runMax truthyCpu 0 recs →
      ∃ r, recs.find?
          (fun x => decide (truthyCpu x = some (runMax truthyCpu 0 recs)))
            = some r ∧
        (recs.foldl RenderStats.update RenderStats.init).max_cpu_uid = r.uid) ∧
    (runMax truthyCpu 0 recs ≤ 0 →
      (recs.foldl RenderStats.update RenderStats.init).max_cpu_uid = "") ∧
    (0 < runMax truthyRam 0 recs →
      ∃ r, recs.find?
          (fun x => decide (truthyRam x = some (runMax truthyRam 0 recs)))
            = some r ∧
        (recs.foldl RenderStats.update RenderStats.init).max_ram_uid = r.uid) ∧
    (runMax truthyRam 0 recs ≤ 0 →
      (recs.foldl RenderStats.update RenderStats.init).max_ram_uid = "") := by
  have hcpu := foldl_maxSel_fst truthyCpu recs "" 0
  have hram := foldl_maxSel_fst truthyRam recs "" 0
  have hfst_cpu : (recs.foldl RenderStats.update RenderStats.init).max_cpu_uid
      = (recs.foldl (maxSel truthyCpu) ("", 0)).1 :=
    congrArg Prod.fst (foldl_update_max_cpu recs RenderStats.init)
  have hfst_ram : (recs.foldl RenderStats.update RenderStats.init).max_ram_uid
      = (recs.foldl (maxSel truthyRam) ("", 0)).1 :=
    congrArg Prod.fst (foldl_update_max_ram recs RenderStats.init)
  refine ⟨fun h => ?_, fun h => ?_, fun h => ?_, fun h => ?_⟩
  · obtain ⟨r, hf, hu⟩ := hcpu.1 h
    exact ⟨r, hf, hfst_cpu.trans hu⟩
  · exact hfst_cpu.trans (hcpu.2 h)
  · obtain ⟨r, hf, hu⟩ := hram.1 h
    exact ⟨r, hf, hfst_ram.trans hu⟩
  · exact hfst_ram.trans (hram.2 h)

/-- A record with a present, negative `peakCpuPercent`. -/
def negCpuRow : RenderRow :=
  { uid := "n", app := "Maya", renderer := "Arnold", num_frames := 1
    success := true, render_time := none, peak_ram := none, peak_cpu := some (-1) }

/-- C3 counterexample: with a single record whose `peakCpuPercent` is
non-null (`some (-1)`), the claim requires `maxCpuId` to be that record's
id (`"n"`), since it attains the maximum among non-null values; the code's
strict comparison against the initial value 0 never fires, leaving the
empty string. -/
theorem max_uid_misses_nonpositive :
    negCpuRow.peak_cpu = some (-1) ∧
    ([negCpuRow].foldl RenderStats.update RenderStats.init).max_cpu_uid = "" :=
  ⟨rfl, rfl⟩

/-- Two records tied at the same positive peak values: used to exercise the
first-seen-wins conclusion of the argmax theorem. -/
def tieRowA : RenderRow :=
  { uid := "first", app := "Maya", renderer := "Arnold", num_frames := 1
    success := true, render_time := none, peak_ram := some 5, peak_cpu := some 5 }

/-- Second record of the tie. -/
def tieRowB : RenderRow :=
  { uid := "second", app := "Maya", renderer := "Arnold", num_frames := 1
    success := true, render_time := none, peak_ram := some 5, peak_cpu := some 5 }

theorem max_uid_first_argmax_witness :
    ∃ r, [tieRowA, tieRowB].find?
        (fun x => decide (truthyCpu x
            = some (runMax truthyCpu 0 [tieRowA, tieRowB]))) = some r ∧
      ([tieRowA, tieRowB].foldl RenderStats.update
          RenderStats.init).max_cpu_uid = r.uid := by
  refine (max_uid_first_argmax [tieRowA, tieRowB]).1 ?_
  norm_num [runMax, truthyCpu, tieRowA, tieRowB, lt_max_iff]

/-- C8: a row whose `frameCount` text does not parse as an integer raises
an uncaught conversion error that aborts the run at that row: once the
stream reaches it (all earlier rows decoded), the whole run returns the
error and no statistics; an error in one file also aborts the loop over
later files.  By contrast, a decoded row's optional numeric fields carry
the (possibly failed, hence `none`) parse results and decoding never fails
because of them. -/
theorem bad_frame_count_aborts_run :
    (∀ (fl : Filters) (st : RenderStats) (pre post : List (List String))
        (uid app renderer nf succ rt pram pcpu : String),
      (∀ x ∈ pre, ∃ r, decodeRow x = .ok r) →
      pyParseInt nf = none →
      runRows fl st
          (pre ++ [uid, app, renderer, nf, succ, rt, pram, pcpu] :: post)
        = .error .badFrameCount) ∧
    (∀ (fl : Filters) (st : RenderStats) (f : List (List String))
        (fs : List (List (List String))) (e : RowError),
      runRows fl st f = .error e → runFiles fl st (f :: fs) = .error e) ∧
    (∀ (uid app renderer nf succ rt pram pcpu : String) (n : Int),
      pyParseInt nf = some n →
      decodeRow [uid, app, renderer, nf, succ, rt, pram, pcpu]
        = .ok { uid := uid, app := app, renderer := renderer, num_frames := n
                success := stripChars succ.data = "true".data
                render_time := pyParseInt rt
                peak_ram := pyParseFloat pram
                peak_cpu := pyParseFloat pcpu }) := by
  refine ⟨?_, ?_, ?_⟩
  · intro fl st pre post uid app renderer nf succ rt pram pcpu hpre hnf
    obtain ⟨st', hst'⟩ := runRows_ok_prefix fl pre st
      ([uid, app, renderer, nf, succ, rt, pram, pcpu] :: post) hpre
    rw [hst', runRows, decodeRow_badFrame uid app renderer nf succ rt pram pcpu hnf]
  · intro fl st f fs e he
    rw [runFiles, he]
  · intro uid app renderer nf succ rt pram pcpu n hnf
    simp [decodeRow, hnf]

theorem bad_frame_count_aborts_run_witness :
    runRows ⟨none, none, false⟩ RenderStats.init
        [["b", "Maya", "Arnold", "ten", "true", "5", "", ""]]
      = .error .badFrameCount ∧
    decodeRow ["c", "Maya", "Arnold", "2", "true", "oops", "", ""]
      = .ok { uid := "c", app := "Maya", renderer := "Arnold", num_frames := 2
              success := true, render_time := none, peak_ram := none
              peak_cpu := none } := by
  constructor
  · exact bad_frame_count_aborts_run.1 ⟨none, none, false⟩ RenderStats.init
      [] [] "b" "Maya" "Arnold" "ten" "true" "5" "" ""
      (by intro x hx; exact absurd hx (List.not_mem_nil x)) rfl
  · exact bad_frame_count_aborts_run.2.2 "c" "Maya" "Arnold" "2" "true" "oops"
      "" "" 2 rfl

/-- C10: a row with a number of fields other than 8 (in particular a blank
line, which `csv.reader` yields as an empty record) raises an uncaught
arity error when the record is constructed, aborting the whole run, at
whatever position the row occurs once the stream reaches it. -/
theorem bad_arity_aborts_run
    (fl : Filters) (st : RenderStats) (pre post : List (List String))
    (row : List String)
    (hpre : ∀ x ∈ pre, ∃ r, decodeRow x = .ok r)
    (hlen : row.length ≠ 8) :
    runRows fl st (pre ++ row :: post) = .error .badArity := by
  obtain ⟨st', hst'⟩ := runRows_ok_prefix fl pre st (row :: post) hpre
  rw [hst', runRows, decodeRow_arity row hlen]

theorem bad_arity_aborts_run_witness :
    runRows ⟨none, none, false⟩ RenderStats.init
        ([["x", "Maya", "Arnold", "1", "true", "", "", ""], [], ["y"]])
      = .error .badArity :=
  bad_arity_aborts_run ⟨none, none, false⟩ RenderStats.init
    [["x", "Maya", "Arnold", "1", "true", "", "", ""]] [["y"]] []
    (by
      intro x hx
      rcases List.mem_cons.mp hx with h | h
      · subst h; exact ⟨_, rfl⟩
      · exact absurd h (List.not_mem_nil x))
    (by simp)

/-! ### Inversion lemmas for the regex eaters -/

theorem eatLit_eq_some (c : Char) (l l' : List Char) :
    eatLit c l = some l' ↔ l = c :: l' := by
  constructor
  · intro h
    cases l with
    | nil => exact absurd h (by simp [eatLit])
    | cons x xs =>
      by_cases hx : x = c
      · subst hx
        rw [eatLit, if_pos rfl] at h
        rw [Option.some.inj h]
      · rw [eatLit, if_neg hx] at h
        exact absurd h (by simp)
  · rintro rfl
    rw [eatLit, if_pos rfl]

theorem eatDigit_eq_some (l l' : List Char) :
    eatDigit l = some l' ↔ ∃ d, d.isDigit = true ∧ l = d :: l' := by
  constructor
  · intro h
    cases l with
    | nil => exact absurd h (by simp [eatDigit])
    | cons x xs =>
      by_cases hx : x.isDigit = true
      · rw [eatDigit, if_pos hx] at h
        exact ⟨x, hx, by rw [Option.some.inj h]⟩
      · rw [eatDigit, if_neg hx] at h
        exact absurd h (by simp)
  · rintro ⟨d, hd, rfl⟩
    rw [eatDigit, if_pos hd]

theorem eatAnyChar_eq_some (l l' : List Char) :
    eatAnyChar l = some l' ↔ ∃ c, c ≠ '\n' ∧ l = c :: l' := by
  constructor
  · intro h
    cases l with
    | nil => exact absurd h (by simp [eatAnyChar])
    | cons x xs =>
      by_cases hx : x = '\n'
      · rw [eatAnyChar, if_neg (by simp [hx])] at h
        exact absurd h (by simp)
      · rw [eatAnyChar, if_pos hx] at h
        exact ⟨x, hx, by rw [Option.some.inj h]⟩
  · rintro ⟨c, hc, rfl⟩
    rw [eatAnyChar, if_pos hc]

theorem eatLits_eq_some (cs : List Char) : ∀ (l l' : List Char),
    eatLits cs l = some l' ↔ l = cs ++ l' := by
  induction cs with
  | nil =>
    intro l l'
    rw [eatLits]
    simp
  | cons c cs ih =>
    intro l l'
    rw [eatLits]
    simp only [Option.bind_eq_some]
    constructor
    · rintro ⟨m, hm, hrest⟩
      rw [eatLit_eq_some] at hm
      rw [ih] at hrest
      rw [hm, hrest, List.cons_append]
    · intro h
      refine ⟨cs ++ l', ?_, ?_⟩
      · rw [eatLit_eq_some, h, List.cons_append]
      · rw [ih]

theorem eatDigits_two (l l' : List Char) :
    eatDigits 2 l = some l' ↔
      ∃ d1 d2, d1.isDigit = true ∧ d2.isDigit = true ∧ l = d1 :: d2 :: l' := by
  have h2 : eatDigits 2 l
      = (eatDigit l).bind (fun m => (eatDigit m).bind (fun k => some k)) := rfl
  rw [h2]
  simp only [Option.bind_eq_some, Option.some.injEq, eatDigit_eq_some]
  constructor
  · rintro ⟨m, ⟨d1, hd1, rfl⟩, k, ⟨d2, hd2, rfl⟩, rfl⟩
    exact ⟨d1, d2, hd1, hd2, rfl⟩
  · rintro ⟨d1, d2, hd1, hd2, rfl⟩
    exact ⟨d2 :: l', ⟨d1, hd1, rfl⟩, l', ⟨d2, hd2, rfl⟩, rfl⟩

theorem eatDigits_four (l l' : List Char) :
    eatDigits 4 l = some l' ↔
      ∃ d1 d2 d3 d4, d1.isDigit = true ∧ d2.isDigit = true ∧
        d3.isDigit = true ∧ d4.isDigit = true ∧
        l = d1 :: d2 :: d3 :: d4 :: l' := by
  have h4 : eatDigits 4 l = (eatDigit l).bind (fun m => eatDigits 3 m) := rfl
  have h3 : ∀ m, eatDigits 3 m = (eatDigit m).bind (fun k => eatDigits 2 k) :=
    fun _ => rfl
  rw [h4]
  simp only [h3, Option.bind_eq_some, eatDigit_eq_some, eatDigits_two]
  constructor
  · rintro ⟨m, ⟨d1, hd1, rfl⟩, k, ⟨d2, hd2, rfl⟩, d3, d4, hd3, hd4, rfl⟩
    exact ⟨d1, d2, d3, d4, hd1, hd2, hd3, hd4, rfl⟩
  · rintro ⟨d1, d2, d3, d4, hd1, hd2, hd3, hd4, rfl⟩
    exact ⟨d2 :: d3 :: d4 :: l', ⟨d1, hd1, rfl⟩,
      d3 :: d4 :: l', ⟨d2, hd2, rfl⟩, d3, d4, hd3, hd4, rfl⟩

/-- What `re.match(r'renders_\d{4}-\d{2}-\d{2}.csv', name)` really accepts:
the literal prefix, the three digit groups, then ANY character other than a
newline where the unescaped `.` stands, then the literal `csv` — and
arbitrary trailing characters, because `re.match` only anchors the start. -/
theorem fileMatch_iff (name : String) :
    fileMatch name = true ↔
      ∃ (y1 y2 y3 y4 m1 m2 d1 d2 sep : Char) (rest : List Char),
        name.data = 'r' :: 'e' :: 'n' :: 'd' :: 'e' :: 'r' :: 's' :: '_' ::
            y1 :: y2 :: y3 :: y4 :: '-' :: m1 :: m2 :: '-' :: d1 :: d2 ::
            sep :: 'c' :: 's' :: 'v' :: rest ∧
        y1.isDigit = true ∧ y2.isDigit = true ∧ y3.isDigit = true ∧
        y4.isDigit = true ∧ m1.isDigit = true ∧ m2.isDigit = true ∧
        d1.isDigit = true ∧ d2.isDigit = true ∧ sep ≠ '\n' := by
  rw [fileMatch, Option.isSome_iff_exists]
  constructor
  · rintro ⟨restf, hch⟩
    simp only [Option.bind_eq_some] at hch
    obtain ⟨a6, ⟨a5, ⟨a4, ⟨a3, ⟨a2, ⟨a1, ⟨a0, hbase, hd4⟩, hlit1⟩, hd2a⟩,
      hlit2⟩, hd2b⟩, hany⟩, hcsv⟩ := hch
    rw [eatLits_eq_some] at hbase hcsv
    rw [eatDigits_four] at hd4
    obtain ⟨y1, y2, y3, y4, hy1, hy2, hy3, hy4, rfl⟩ := hd4
    rw [eatLit_eq_some] at hlit1
    rw [eatDigits_two] at hd2a
    obtain ⟨m1, m2, hm1, hm2, rfl⟩ := hd2a
    rw [eatLit_eq_some] at hlit2
    rw [eatDigits_two] at hd2b
    obtain ⟨d1, d2, hd1, hd2, rfl⟩ := hd2b
    rw [eatAnyChar_eq_some] at hany
    obtain ⟨sep, hsep, rfl⟩ := hany
    refine ⟨y1, y2, y3, y4, m1, m2, d1, d2, sep, restf, ?_,
      hy1, hy2, hy3, hy4, hm1, hm2, hd1, hd2, hsep⟩
    rw [hbase, hlit1, hlit2, hcsv]
    rfl
  · rintro ⟨y1, y2, y3, y4, m1, m2, d1, d2, sep, rest, hdata,
      hy1, hy2, hy3, hy4, hm1, hm2, hd1, hd2, hsep⟩
    have hb : eatLits "renders_".data name.data
        = some (y1 :: y2 :: y3 :: y4 :: '-' :: m1 :: m2 :: '-' :: d1 :: d2 ::
            sep :: 'c' :: 's' :: 'v' :: rest) := by
      rw [eatLits_eq_some, hdata]; rfl
    have h4 : eatDigits 4 (y1 :: y2 :: y3 :: y4 :: '-' :: m1 :: m2 :: '-' ::
        d1 :: d2 :: sep :: 'c' :: 's' :: 'v' :: rest)
        = some ('-' :: m1 :: m2 :: '-' :: d1 :: d2 :: sep :: 'c' :: 's' ::
            'v' :: rest) := by
      rw [eatDigits_four]
      exact ⟨y1, y2, y3, y4, hy1, hy2, hy3, hy4, rfl⟩
    have hl1 : eatLit '-' ('-' :: m1 :: m2 :: '-' :: d1 :: d2 :: sep :: 'c' ::
        's' :: 'v' :: rest)
        = some (m1 :: m2 :: '-' :: d1 :: d2 :: sep :: 'c' :: 's' :: 'v' :: rest) := by
      rw [eatLit_eq_some]
    have h2a : eatDigits 2 (m1 :: m2 :: '-' :: d1 :: d2 :: sep :: 'c' :: 's' ::
        'v' :: rest)
        = some ('-' :: d1 :: d2 :: sep :: 'c' :: 's' :: 'v' :: rest) := by
      rw [eatDigits_two]
      exact ⟨m1, m2, hm1, hm2, rfl⟩
    have hl2 : eatLit '-' ('-' :: d1 :: d2 :: sep :: 'c' :: 's' :: 'v' :: rest)
        = some (d1 :: d2 :: sep :: 'c' :: 's' :: 'v' :: rest) := by
      rw [eatLit_eq_some]
    have h2b : eatDigits 2 (d1 :: d2 :: sep :: 'c' :: 's' :: 'v' :: rest)
        = some (sep :: 'c' :: 's' :: 'v' :: rest) := by
      rw [eatDigits_two]
      exact ⟨d1, d2, hd1, hd2, rfl⟩
    have hsp : eatAnyChar (sep :: 'c' :: 's' :: 'v' :: rest)
        = some ('c' :: 's' :: 'v' :: rest) := by
      rw [eatAnyChar_eq_some]
      exact ⟨sep, hsep, rfl⟩
    have hcv : eatLits "csv".data ('c' :: 's' :: 'v' :: rest) = some rest := by
      rw [eatLits_eq_some]; rfl
    refine ⟨rest, ?_⟩
    rw [hb, Option.some_bind, h4, Option.some_bind, hl1, Option.some_bind,
      h2a, Option.some_bind, hl2, Option.some_bind, h2b, Option.some_bind,
      hsp, Option.some_bind, hcv]

/-- C6 (amended): a directory entry is selected exactly when its name
BEGINS with `renders_`, four digits, `-`, two digits, `-`, two digits, then
any single non-newline character where the pattern's unescaped `.` stands,
then `csv`; anything may follow (so `renders_2024-01-01.csv.bak` or
`renders_2024-01-01Xcsv` are selected), and only names without such a
prefix are ignored. -/
theorem file_selection_characterisation (names : List String) (name : String) :
    name ∈ selectFiles names ↔
      name ∈ names ∧
      ∃ (y1 y2 y3 y4 m1 m2 d1 d2 sep : Char) (rest : List Char),
        name.data = 'r' :: 'e' :: 'n' :: 'd' :: 'e' :: 'r' :: 's' :: '_' ::
            y1 :: y2 :: y3 :: y4 :: '-' :: m1 :: m2 :: '-' :: d1 :: d2 ::
            sep :: 'c' :: 's' :: 'v' :: rest ∧
        y1.isDigit = true ∧ y2.isDigit = true ∧ y3.isDigit = true ∧
        y4.isDigit = true ∧ m1.isDigit = true ∧ m2.isDigit = true ∧
        d1.isDigit = true ∧ d2.isDigit = true ∧ sep ≠ '\n' := by
  rw [selectFiles, List.mem_filter]
  exact and_congr_right fun _ => fileMatch_iff name

/-- C6 counterexample: the claim says a filename with trailing characters
after `.csv`, or with a different character in place of the dot, is
ignored; the code selects both. -/
theorem file_selection_accepts_trailing :
    selectFiles ["renders_2024-01-01.csv.bak"] = ["renders_2024-01-01.csv.bak"] ∧
    fileMatch "renders_2024-01-01Xcsv" = true :=
  ⟨rfl, rfl⟩

/-! ### The end-to-end scenario of the spec -/

/-- The two rows of `renders_2024-01-01.csv` in the spec's scenario. -/
def scenarioRows : List (List String) :=
  [["id1", "Maya", "Arnold", "10", "true", "5000", "2.5", "80.0"],
   ["id2", "Maya", "Arnold", "8", "false", "", "", ""]]

/-- The scenario directory: exactly one file, named to match the pattern. -/
def scenarioDir : List (String × List (List String)) :=
  [("renders_2024-01-01.csv", scenarioRows)]

/-- The statistics a caller observes: count, the three averages, and the
two max ids. -/
def statsView (st : RenderStats) : Nat × ℚ × ℚ × ℚ × String × String :=
  (st.count, st.avgtime, st.avgcpu, st.avgram, st.maxcpu, st.maxram)

/-- Decoded form of the scenario's first row. -/
def scenarioRec1 : RenderRow :=
  { uid := "id1", app := "Maya", renderer := "Arnold", num_frames := 10
    success := true, render_time := some 5000, peak_ram := some (5/2)
    peak_cpu := some 80 }

/-- Decoded form of the scenario's second row. -/
def scenarioRec2 : RenderRow :=
  { uid := "id2", app := "Maya", renderer := "Arnold", num_frames := 8
    success := false, render_time := none, peak_ram := none, peak_cpu := none }

/-- C1: running the pipeline on the scenario directory with no app/renderer
filters gives, with `failed` unset: count 1, avgtime 5, avgcpu 80, avgram
2.5, and both max ids `id1`; with `failed` set: count 2 and every other
reported value unchanged. -/
theorem scenario_pipeline :
    (runParser ⟨none, none, false⟩ scenarioDir).map statsView
        = .ok (1, 5, 80, 5/2, "id1", "id1") ∧
    (runParser ⟨none, none, true⟩ scenarioDir).map statsView
        = .ok (2, 5, 80, 5/2, "id1", "id1") := by
  have hr25 : pyParseFloat "2.5" = some (5/2) := by
    simp +decide [pyParseFloat, stripChars, isPySpace, splitDot, natOfDigits,
      digitVal, List.dropWhile]
    norm_num
  have hc80 : pyParseFloat "80.0" = some 80 := by
    simp +decide [pyParseFloat, stripChars, isPySpace, splitDot, natOfDigits,
      digitVal, List.dropWhile]
  have hi10 : pyParseInt "10" = some 10 := rfl
  have hi5000 : pyParseInt "5000" = some 5000 := rfl
  have hd1 : decodeRow ["id1", "Maya", "Arnold", "10", "true", "5000", "2.5", "80.0"]
      = .ok scenarioRec1 := by
    simp +decide [decodeRow, hi10, hi5000, hr25, hc80, scenarioRec1]
  have hd2 : decodeRow ["id2", "Maya", "Arnold", "8", "false", "", "", ""]
      = .ok scenarioRec2 := rfl
  have ha1f : accept ⟨none, none, false⟩ scenarioRec1 = true := rfl
  have ha2f : accept ⟨none, none, false⟩ scenarioRec2 = false := rfl
  have ha1t : accept ⟨none, none, true⟩ scenarioRec1 = true := rfl
  have ha2t : accept ⟨none, none, true⟩ scenarioRec2 = true := rfl
  have hrows_f : runRows ⟨none, none, false⟩ RenderStats.init scenarioRows
      = .ok (RenderStats.init.update scenarioRec1) := by
    simp [scenarioRows, runRows, hd1, hd2, ha1f, ha2f]
  have hrows_t : runRows ⟨none, none, true⟩ RenderStats.init scenarioRows
      = .ok ((RenderStats.init.update scenarioRec1).update scenarioRec2) := by
    simp [scenarioRows, runRows, hd1, hd2, ha1t, ha2t]
  have hview1 : statsView (RenderStats.init.update scenarioRec1)
      = (1, 5, 80, 5/2, "id1", "id1") := by
    norm_num [statsView, RenderStats.avgtime, RenderStats.avgcpu,
      RenderStats.avgram, RenderStats.maxcpu, RenderStats.maxram,
      RenderStats.update, updTime, updCpu, updRam, RenderStats.init,
      scenarioRec1]
  have hview2 : statsView ((RenderStats.init.update scenarioRec1).update
        scenarioRec2)
      = (2, 5, 80, 5/2, "id1", "id1") := by
    norm_num [statsView, RenderStats.avgtime, RenderStats.avgcpu,
      RenderStats.avgram, RenderStats.maxcpu, RenderStats.maxram,
      RenderStats.update, updTime, updCpu, updRam, RenderStats.init,
      scenarioRec1, scenarioRec2]
  constructor
  · show (runFiles ⟨none, none, false⟩ RenderStats.init [scenarioRows]).map
        statsView = _
    simp [runFiles, hrows_f, Except.map, hview1]
  · show (runFiles ⟨none, none, true⟩ RenderStats.init [scenarioRows]).map
        statsView = _
    simp [runFiles, hrows_t, Except.map, hview2]

end RendParse
